import Mathlib

/-
Verification of the reference-counted component registry and cascade-removal
engine (`nf_core/components/remove.py` and the registry operations it calls).

The registry (`modules.json`) is modelled at the scope of the single
(remote_url, repo_path) pair that `ComponentRemove.remove` threads through
every call (`self.modules_repo.remote_url`, `self.modules_repo.repo_path`):
two keyed sections, one per component kind, each mapping a component name to
its record.  The filesystem is modelled as the set of component directories
that exist, keyed by (kind, name) under the fixed pipeline root.
-/

namespace NfCoreRemove

/-- Component kind: the `component_type` strings "modules" / "subworkflows". -/
inductive CompType where
  | modules
  | subworkflows
deriving DecidableEq

/-- One persisted registry record; only the `installed_by` list matters to the
removal engine (branch / git_sha are carried through untouched). -/
structure ComponentEntry where
  installed_by : List String
deriving DecidableEq

/-- The persisted registry at a fixed (remote_url, repo_path): the "modules"
and "subworkflows" sections, each an association list keyed by name. -/
structure Registry where
  modules : List (String × ComponentEntry)
  subworkflows : List (String × ComponentEntry)
deriving DecidableEq

/-- The section of the registry for a component kind. -/
def rsection (reg : Registry) (ct : CompType) : List (String × ComponentEntry) :=
  match ct with
  | CompType.modules => reg.modules
  | CompType.subworkflows => reg.subworkflows

/-- Replace the section of the registry for a component kind. -/
def setSection (reg : Registry) (ct : CompType) (s : List (String × ComponentEntry)) : Registry :=
  match ct with
  | CompType.modules => { reg with modules := s }
  | CompType.subworkflows => { reg with subworkflows := s }

/-- Association-list lookup by component name. -/
def lookupEntry : List (String × ComponentEntry) → String → Option ComponentEntry
  | [], _ => none
  | (k, v) :: rest, n => if k = n then some v else lookupEntry rest n

/-- Drop every pair with the given key (the registry invariant keeps keys
unique, so at most one is dropped). -/
def eraseKey : List (String × ComponentEntry) → String → List (String × ComponentEntry)
  | [], _ => []
  | (k, v) :: rest, n => if k = n then eraseKey rest n else (k, v) :: eraseKey rest n

/-- Overwrite the record stored under the given key, keeping its position. -/
def setEntry : List (String × ComponentEntry) → String → ComponentEntry → List (String × ComponentEntry)
  | [], _, _ => []
  | (k, v) :: rest, n, e => if k = n then (k, e) :: setEntry rest n e else (k, v) :: setEntry rest n e

/-- Remove a parent identifier from an `installed_by` set (every occurrence,
matching the set semantics of the spec). -/
def eraseParent : List String → String → List String
  | [], _ => []
  | x :: xs, p => if x = p then eraseParent xs p else x :: eraseParent xs p

/-- Modelled from the spec: `ModulesJson.module_present` (its source file
`nf_core/modules/modules_json.py` is not part of this tree) — whether the
registry holds an entry for the component, used by the failure policy of the
Cascade Removal Engine ("no registry entry"). -/
def module_present (reg : Registry) (name : String) : Bool :=
  (lookupEntry reg.modules name).isSome || (lookupEntry reg.subworkflows name).isSome

/-- Modelled from the spec: `ModulesJson.remove_entry`, the registry's
`DeleteIfUnreferenced(kind, name, remoteURL, repoPath, parentToRemove)`
operation (its source file `nf_core/modules/modules_json.py` is not part of
this tree).  It removes the revoked parent link from the record's
`installed_by` set; if the set becomes empty it deletes the record and
returns `true` (Removed), otherwise it persists the reduced set and returns
`false` (Kept); a missing record returns `false`.  An absent parent link
(`removed_by = none`), or a parent link equal to the component's own name
(the top-level component revoking itself), stands for the direct-installation
marker `"direct"`: the spec requires both that a directly installed component
(installedBy = [direct]) is deleted when it is itself the removal target, and
that the operation never deletes a record whose `installed_by` set is still
non-empty. -/
def remove_entry (reg : Registry) (ct : CompType) (name : String) (removed_by : Option String) :
    Registry × Bool :=
  match lookupEntry (rsection reg ct) name with
  | none => (reg, false)
  | some entry =>
    let rb := match removed_by with
      | none => "direct"
      | some p => if p = name then "direct" else p
    let ib := eraseParent entry.installed_by rb
    if ib = [] then (setSection reg ct (eraseKey (rsection reg ct) name), true)
    else (setSection reg ct (setEntry (rsection reg ct) name { installed_by := ib }), false)

/-- All components whose `installed_by` set contains the given parent name,
with their kinds, modules section first. -/
def dependentsOf (reg : Registry) (name : String) : List (String × CompType) :=
  ((reg.modules.filter (fun p => decide (name ∈ p.2.installed_by))).map
      (fun p => (p.1, CompType.modules))) ++
  ((reg.subworkflows.filter (fun p => decide (name ∈ p.2.installed_by))).map
      (fun p => (p.1, CompType.subworkflows)))

/-- Insert a dependent into the accumulated mapping unless its name is
already present (each child appears once, first discovery wins). -/
def insertDep (acc : List (String × CompType)) (d : String × CompType) : List (String × CompType) :=
  if acc.any (fun x => decide (x.1 = d.1)) then acc else acc ++ [d]

/-- Worklist traversal for dependent resolution: expand each not-yet-visited
subworkflow name, adding its dependents and queueing dependent subworkflows.
Fuel bounds the number of steps; `resolveFuel` supplies enough for the whole
registry. -/
def resolveGo (reg : Registry) :
    Nat → List String → List String → List (String × CompType) → List (String × CompType)
  | 0, _, _, acc => acc
  | _ + 1, [], _, acc => acc
  | fuel + 1, w :: ws, visited, acc =>
    if w ∈ visited then resolveGo reg fuel ws visited acc
    else
      let ds := dependentsOf reg w
      resolveGo reg fuel
        (((ds.filter (fun d => decide (d.2 = CompType.subworkflows))).map Prod.fst) ++ ws)
        (w :: visited)
        (ds.foldl insertDep acc)

/-- Enough traversal steps for any registry: each expansion visits a new name
and queues at most one work item per registry entry. -/
def resolveFuel (reg : Registry) : Nat :=
  (reg.modules.length + reg.subworkflows.length + 1) * (reg.subworkflows.length + 2)

/-- Modelled from the spec: `ModulesJson.get_dependent_components`, the
Dependency Resolver's `ResolveDependents` (its source file
`nf_core/modules/modules_json.py` is not part of this tree).  For a Module it
returns only the component itself; for a Subworkflow it traverses the
registry, collecting every component whose `installed_by` set contains the
name and recursing into dependent subworkflows, with a visited set so a
malformed cyclic registry still terminates. -/
def get_dependent_components (reg : Registry) (ct : CompType) (name : String) :
    List (String × CompType) :=
  match ct with
  | CompType.modules => [(name, CompType.modules)]
  | CompType.subworkflows => resolveGo reg (resolveFuel reg) [name] [] []

/-- The set of component directories present on disk, keyed by (kind, name)
under the fixed pipeline root. -/
abbrev DirSet := List (CompType × String)

/-- Modelled from the spec: `ComponentCommand.clear_component_dir`, the
Filesystem Synchronizer's `DeleteTree` (its source file
`nf_core/components/components_command.py` is not part of this tree).
Deletes the component's on-disk tree, returning `true` when something was
deleted; deleting an absent path is not an error and returns `false`. -/
def clear_component_dir (dirs : DirSet) (ct : CompType) (name : String) : DirSet × Bool :=
  if (ct, name) ∈ dirs then (dirs.filter (fun d => decide (d ≠ (ct, name))), true)
  else (dirs, false)

/-- The mutable state `ComponentRemove.remove` acts on: the loaded
`modules.json` registry and the on-disk component directories. -/
structure RemoveState where
  registry : Registry
  dirs : DirSet
deriving DecidableEq

/-- Whether the component's directory `Path(dir, component_type, repo_path,
component)` exists. -/
def dirExists (dirs : DirSet) (ct : CompType) (name : String) : Bool :=
  decide ((ct, name) ∈ dirs)

/-- One iteration of the candidate loop of `ComponentRemove.remove`
(`remove.py` lines 76-87): call `remove_entry` for the candidate, and clear
the candidate's directory only when the registry entry was removed, or-ing
the physical result into the accumulator. -/
def removeCandidate (removed_by : Option String) (acc : RemoveState × Bool)
    (cand : String × CompType) : RemoveState × Bool :=
  let res := remove_entry acc.1.registry cand.2 cand.1 removed_by
  if res.2 then
    let cl := clear_component_dir acc.1.dirs cand.2 cand.1
    ({ registry := res.1, dirs := cl.1 }, cl.2 || acc.2)
  else ({ registry := res.1, dirs := acc.1.dirs }, acc.2)

/-- Lookup in a name-to-kind mapping. -/
def lookupDep : List (String × CompType) → String → Option CompType
  | [], _ => none
  | (k, v) :: rest, n => if k = n then some v else lookupDep rest n

/-- Python `dict.update`: existing keys keep their position and take the new
value, new keys are appended in order. -/
def dictUpdate (base upd : List (String × CompType)) : List (String × CompType) :=
  (base.map (fun p => match lookupDep upd p.1 with | some v => (p.1, v) | none => p)) ++
  upd.filter (fun p => decide (lookupDep base p.1 = none))

/-- `ComponentRemove.remove` from `nf_core/components/remove.py`.  In a clone
of nf-core/modules (`repo_type == "modules"`) it refuses and returns `false`.
If the component's directory is missing it reconciles: when a registry entry
is present it is passed to `remove_entry` with no `removed_by`, and the
operation returns `false`.  Otherwise the candidate mapping starts as the
singleton `{component: component_type}`; for a subworkflow `removed_by` is
set to the component's name and the mapping is extended with the resolved
dependents.  Each candidate is then processed by `removeCandidate`, and the
result is `true` iff any candidate's entry removal was followed by a
successful directory deletion. -/
def remove (repo_type : String) (ct : CompType) (component : String) (st : RemoveState) :
    RemoveState × Bool :=
  if repo_type = "modules" then (st, false)
  else if dirExists st.dirs ct component = false then
    (if module_present st.registry component then
      ({ registry := (remove_entry st.registry ct component none).1, dirs := st.dirs }, false)
    else (st, false))
  else
    let removed_by : Option String :=
      if ct = CompType.subworkflows then some component else none
    let dependent_components : List (String × CompType) :=
      if ct = CompType.subworkflows then
        dictUpdate [(component, ct)] (get_dependent_components st.registry ct component)
      else [(component, ct)]
    dependent_components.foldl (removeCandidate removed_by) (st, false)

/-- The Cascade Removal Engine step for a Subworkflow exactly as the spec
words it (§4.3 steps 2-3): the parent link is the subworkflow's own name and
the candidate set is `{name: Subworkflow}` unioned with the resolved
transitive dependents, each candidate passed to the delete-if-unreferenced
operation with that parent link. -/
def cascadeSubworkflow (st : RemoveState) (name : String) : RemoveState × Bool :=
  (dictUpdate [(name, CompType.subworkflows)]
      (get_dependent_components st.registry CompType.subworkflows name)).foldl
    (removeCandidate (some name)) (st, false)

/-! ### Helper lemmas about the registry primitives -/

theorem rsection_setSection_self (reg : Registry) (ct : CompType)
    (s : List (String × ComponentEntry)) : rsection (setSection reg ct s) ct = s := by
  cases ct <;> rfl

theorem lookup_eraseKey_self (s : List (String × ComponentEntry)) (n : String) :
    lookupEntry (eraseKey s n) n = none := by
  induction s with
  | nil => rfl
  | cons kv rest ih =>
    obtain ⟨k, v⟩ := kv
    by_cases h : k = n
    · simp [eraseKey, h, ih]
    · simp [eraseKey, h, lookupEntry, ih]

theorem lookup_setEntry_self (s : List (String × ComponentEntry)) (n : String)
    (e0 e : ComponentEntry) (h : lookupEntry s n = some e0) :
    lookupEntry (setEntry s n e) n = some e := by
  induction s with
  | nil => simp [lookupEntry] at h
  | cons kv rest ih =>
    obtain ⟨k, v⟩ := kv
    by_cases hk : k = n
    · simp [setEntry, hk, lookupEntry]
    · simp [lookupEntry, hk] at h
      simp [setEntry, hk, lookupEntry, ih h]

theorem mem_eraseParent (l : List String) (p x : String) (hx : x ∈ l) (hne : x ≠ p) :
    x ∈ eraseParent l p := by
  induction l with
  | nil => simp at hx
  | cons y ys ih =>
    rcases List.mem_cons.mp hx with h | h
    · subst h
      simp [eraseParent, hne]
    · by_cases hy : y = p
      · simpa [eraseParent, hy] using ih h
      · simp [eraseParent, hy]
        exact Or.inr (ih h)

theorem module_present_of_lookup (reg : Registry) (ct : CompType) (n : String)
    (e : ComponentEntry) (h : lookupEntry (rsection reg ct) n = some e) :
    module_present reg n = true := by
  cases ct <;> simp [module_present, rsection] at h ⊢ <;> simp [h]

theorem remove_entry_none_eq_direct (reg : Registry) (ct : CompType) (n : String) :
    remove_entry reg ct n none = remove_entry reg ct n (some "direct") := by
  unfold remove_entry
  by_cases h : "direct" = n <;> simp [h]

theorem eraseParent_ne_nil_of_two (l : List String) (rb a b : String)
    (ha : a ∈ l) (hb : b ∈ l) (hne : a ≠ b) : eraseParent l rb ≠ [] := by
  by_cases hav : a = rb
  · have hbv : b ≠ rb := fun hh => hne (hav.trans hh.symm)
    have hmem := mem_eraseParent l rb b hb hbv
    intro hnil
    rw [hnil] at hmem
    simp at hmem
  · have hmem := mem_eraseParent l rb a ha hav
    intro hnil
    rw [hnil] at hmem
    simp at hmem

theorem remove_entry_eq_of_lookup (reg : Registry) (ct : CompType) (name p : String)
    (e : ComponentEntry) (h : lookupEntry (rsection reg ct) name = some e) :
    remove_entry reg ct name (some p) =
      (if eraseParent e.installed_by (if p = name then "direct" else p) = []
       then (setSection reg ct (eraseKey (rsection reg ct) name), true)
       else (setSection reg ct (setEntry (rsection reg ct) name
              { installed_by := eraseParent e.installed_by (if p = name then "direct" else p) }),
             false)) := by
  simp only [remove_entry, h]

/-- C1: for every component record, `remove_entry` with a parent link deletes
the record exactly when the `installed_by` set becomes empty after revoking
that link; with two or more distinct parents beforehand the record stays
present with the reduced set and the candidate-loop step leaves its files and
the accumulated flag untouched; the operation never leaves a record with an
empty `installed_by` set and never deletes a record whose set is non-empty. -/
theorem c1_remove_entry_refcount (reg : Registry) (ct : CompType) (name p : String)
    (e : ComponentEntry) (h : lookupEntry (rsection reg ct) name = some e) :
    ((remove_entry reg ct name (some p)).2 = true ↔
      eraseParent e.installed_by (if p = name then "direct" else p) = []) ∧
    (eraseParent e.installed_by (if p = name then "direct" else p) = [] →
      lookupEntry (rsection (remove_entry reg ct name (some p)).1 ct) name = none) ∧
    (eraseParent e.installed_by (if p = name then "direct" else p) ≠ [] →
      lookupEntry (rsection (remove_entry reg ct name (some p)).1 ct) name =
        some { installed_by :=
          eraseParent e.installed_by (if p = name then "direct" else p) }) ∧
    (∀ a b, a ∈ e.installed_by → b ∈ e.installed_by → a ≠ b →
      (remove_entry reg ct name (some p)).2 = false) ∧
    (∀ (dirs : DirSet) (acc : Bool), (remove_entry reg ct name (some p)).2 = false →
      (removeCandidate (some p) ({ registry := reg, dirs := dirs }, acc) (name, ct)).1.dirs
          = dirs ∧
      (removeCandidate (some p) ({ registry := reg, dirs := dirs }, acc) (name, ct)).2 = acc) := by
  have hre := remove_entry_eq_of_lookup reg ct name p e h
  by_cases hib : eraseParent e.installed_by (if p = name then "direct" else p) = []
  · refine ⟨by simp [hre, hib], ?_, fun hne => absurd hib hne, ?_, ?_⟩
    · intro _
      rw [hre, if_pos hib]
      simp [rsection_setSection_self, lookup_eraseKey_self]
    · intro a b ha hb hab
      exact absurd hib (eraseParent_ne_nil_of_two e.installed_by _ a b ha hb hab)
    · intro dirs acc hfalse
      rw [hre, if_pos hib] at hfalse
      simp at hfalse
  · refine ⟨by simp [hre, hib], fun hh => absurd hh hib, ?_, ?_, ?_⟩
    · intro _
      rw [hre, if_neg hib]
      simp only [rsection_setSection_self]
      exact lookup_setEntry_self (rsection reg ct) name e _ h
    · intro a b _ _ _
      simp [hre, hib]
    · intro dirs acc _
      simp only [removeCandidate, hre, if_neg hib]
      simp

/-- Concrete registry used as a witness instance: one module with two
parents. -/
def exReg1 : Registry :=
  { modules := [("M2", { installed_by := ["SW1", "SW2"] })], subworkflows := [] }

theorem c1_remove_entry_refcount_witness :
    lookupEntry (rsection exReg1 CompType.modules) "M2" =
        some { installed_by := ["SW1", "SW2"] } ∧
    ((remove_entry exReg1 CompType.modules "M2" (some "SW1")).2 = true ↔
      eraseParent ["SW1", "SW2"] (if "SW1" = "M2" then "direct" else "SW1") = []) :=
  ⟨by decide,
   (c1_remove_entry_refcount exReg1 CompType.modules "M2" "SW1"
      { installed_by := ["SW1", "SW2"] } (by decide)).1⟩

/-- The transitive-cascade scenario of the spec: SW1 installed directly,
M1 installed by SW1, M2 installed by SW1 and SW2, SW2 a separate
subworkflow; all four directories on disk. -/
def exC2state : RemoveState :=
  { registry :=
      { modules := [("M1", { installed_by := ["SW1"] }),
                    ("M2", { installed_by := ["SW1", "SW2"] })],
        subworkflows := [("SW1", { installed_by := ["direct"] }),
                         ("SW2", { installed_by := ["direct"] })] },
    dirs := [(CompType.modules, "M1"), (CompType.modules, "M2"),
             (CompType.subworkflows, "SW1"), (CompType.subworkflows, "SW2")] }

/-- C2: removing SW1 from the scenario registry deletes SW1's and M1's
registry entries and directories, keeps M2's entry with `installed_by`
reduced to exactly ["SW2"] and its directory intact, keeps SW2 untouched,
and reports `true`. -/
theorem c2_transitive_cascade :
    remove "pipeline" CompType.subworkflows "SW1" exC2state =
      ({ registry :=
          { modules := [("M2", { installed_by := ["SW2"] })],
            subworkflows := [("SW2", { installed_by := ["direct"] })] },
         dirs := [(CompType.modules, "M2"), (CompType.subworkflows, "SW2")] }, true) := by
  decide

/-- A deliberately malformed registry with a dependency cycle: subworkflow
A's `installed_by` lists B and B's lists A. -/
def exCycReg : Registry :=
  { modules := [],
    subworkflows := [("A", { installed_by := ["B"] }), ("B", { installed_by := ["A"] })] }

/-- C8: on the cyclic registry the dependent-resolution step of remove
terminates (the resolver is a total function evaluated here to a value) and
yields the finite dependent set {B, A}; the candidate mapping remove builds
from it is exactly {A, B}. -/
theorem c8_cycle_terminates :
    get_dependent_components exCycReg CompType.subworkflows "A" =
        [("B", CompType.subworkflows), ("A", CompType.subworkflows)] ∧
    dictUpdate [("A", CompType.subworkflows)]
        (get_dependent_components exCycReg CompType.subworkflows "A") =
        [("A", CompType.subworkflows), ("B", CompType.subworkflows)] := by
  constructor <;> decide

/-- C9: in a clone of the shared catalog itself (repo_type = "modules"),
remove returns `false` and leaves the registry and the filesystem completely
unchanged, whatever the component and kind. -/
theorem c9_modules_clone_noop (ct : CompType) (component : String) (st : RemoveState) :
    remove "modules" ct component st = (st, false) := by
  simp [remove]

/-- C3: removing a subworkflow (directory present, not a catalog clone)
processes exactly the candidate mapping {name: Subworkflow} unioned with the
resolved transitive dependents, passing the subworkflow's own name as the
revoked parent link to every candidate's delete-if-unreferenced call — the
behaviour captured verbatim by `cascadeSubworkflow`. -/
theorem c3_subworkflow_parent_link (rt name : String) (st : RemoveState)
    (h1 : rt ≠ "modules") (h2 : dirExists st.dirs CompType.subworkflows name = true) :
    remove rt CompType.subworkflows name st = cascadeSubworkflow st name := by
  simp [remove, cascadeSubworkflow, h1, h2]

theorem c3_subworkflow_parent_link_witness :
    ("pipeline" ≠ "modules") ∧
    dirExists exC2state.dirs CompType.subworkflows "SW1" = true ∧
    remove "pipeline" CompType.subworkflows "SW1" exC2state =
      cascadeSubworkflow exC2state "SW1" :=
  ⟨by decide, by decide,
   c3_subworkflow_parent_link "pipeline" "SW1" exC2state (by decide) (by decide)⟩

/-- C4: removing a module directly (directory present, not a catalog clone)
processes exactly the singleton candidate {name: Module}, and the registry
call behaves as delete-if-unreferenced with the sentinel parent link
"direct": the `removed_by = none` the code passes is the direct marker. -/
theorem c4_direct_module_sentinel (rt name : String) (st : RemoveState)
    (h1 : rt ≠ "modules") (h2 : dirExists st.dirs CompType.modules name = true) :
    remove rt CompType.modules name st =
      removeCandidate (some "direct") (st, false) (name, CompType.modules) := by
  have hnone := remove_entry_none_eq_direct st.registry CompType.modules name
  simp [remove, h1, h2, List.foldl, removeCandidate, hnone]

/-- A directly installed module with its directory on disk. -/
def exC4state : RemoveState :=
  { registry := { modules := [("M9", { installed_by := ["direct"] })], subworkflows := [] },
    dirs := [(CompType.modules, "M9")] }

theorem c4_direct_module_sentinel_witness :
    ("pipeline" ≠ "modules") ∧
    dirExists exC4state.dirs CompType.modules "M9" = true ∧
    remove "pipeline" CompType.modules "M9" exC4state =
      removeCandidate (some "direct") (exC4state, false) ("M9", CompType.modules) :=
  ⟨by decide, by decide,
   c4_direct_module_sentinel "pipeline" "M9" exC4state (by decide) (by decide)⟩

/-- C6: a component with neither a registry entry nor an on-disk directory
makes remove report failure (`false`) with no mutation of the registry or
the filesystem. -/
theorem c6_not_installed (rt : String) (ct : CompType) (name : String) (st : RemoveState)
    (h1 : rt ≠ "modules") (h2 : dirExists st.dirs ct name = false)
    (h3 : module_present st.registry name = false) :
    remove rt ct name st = (st, false) := by
  simp [remove, h1, h2, h3]

/-- An empty pipeline: no registry entries, no component directories. -/
def exEmptyState : RemoveState :=
  { registry := { modules := [], subworkflows := [] }, dirs := [] }

theorem c6_not_installed_witness :
    ("pipeline" ≠ "modules") ∧
    dirExists exEmptyState.dirs CompType.modules "X" = false ∧
    module_present exEmptyState.registry "X" = false ∧
    remove "pipeline" CompType.modules "X" exEmptyState = (exEmptyState, false) :=
  ⟨by decide, by decide, by decide,
   c6_not_installed "pipeline" CompType.modules "X" exEmptyState (by decide) (by decide)
     (by decide)⟩

/-- A stale registry entry whose directory is gone but whose `installed_by`
set still lists another parent (SW2). -/
def exC5state : RemoveState :=
  { registry := { modules := [("M1", { installed_by := ["SW2"] })], subworkflows := [] },
    dirs := [] }

/-- C5 counterexample: a stale module entry still referenced by SW2 is not
purged by the reconciliation branch — remove leaves the entry in place (the
registry treats the absent parent link as releasing the direct marker, which
is not in the set). -/
theorem c5_counterexample :
    dirExists exC5state.dirs CompType.modules "M1" = false ∧
    module_present exC5state.registry "M1" = true ∧
    lookupEntry (remove "pipeline" CompType.modules "M1" exC5state).1.registry.modules "M1" =
      some { installed_by := ["SW2"] } := by
  refine ⟨by decide, by decide, by decide⟩

/-- C5 (amended): when the registry entry exists but the directory does not,
remove reports `false`, raises no error, leaves the filesystem untouched,
applies `remove_entry` with no parent link to the stale entry, and purges it
exactly when releasing the direct marker empties its `installed_by` set. -/
theorem c5_amended_reconciliation (rt : String) (ct : CompType) (name : String)
    (st : RemoveState) (e : ComponentEntry)
    (h1 : rt ≠ "modules") (h2 : dirExists st.dirs ct name = false)
    (h3 : lookupEntry (rsection st.registry ct) name = some e) :
    (remove rt ct name st).2 = false ∧
    (remove rt ct name st).1.dirs = st.dirs ∧
    (remove rt ct name st).1.registry = (remove_entry st.registry ct name none).1 ∧
    (lookupEntry (rsection (remove rt ct name st).1.registry ct) name = none ↔
      eraseParent e.installed_by "direct" = []) := by
  have hmp := module_present_of_lookup st.registry ct name e h3
  have hrm : remove rt ct name st =
      ({ registry := (remove_entry st.registry ct name none).1, dirs := st.dirs }, false) := by
    simp [remove, h1, h2, hmp]
  refine ⟨by simp [hrm], by simp [hrm], by simp [hrm], ?_⟩
  rw [hrm]
  have hdir : (if "direct" = name then "direct" else "direct") = "direct" := by
    split <;> rfl
  have hre := remove_entry_eq_of_lookup st.registry ct name "direct" e h3
  rw [hdir] at hre
  rw [remove_entry_none_eq_direct, hre]
  by_cases hib : eraseParent e.installed_by "direct" = []
  · rw [if_pos hib]
    simp [rsection_setSection_self, lookup_eraseKey_self, hib]
  · rw [if_neg hib]
    simp only [rsection_setSection_self]
    rw [lookup_setEntry_self (rsection st.registry ct) name e _ h3]
    simp [hib]

/-- A stale registry entry whose only parent is the direct marker. -/
def exC5bState : RemoveState :=
  { registry := { modules := [("M1", { installed_by := ["direct"] })], subworkflows := [] },
    dirs := [] }

theorem c5_amended_reconciliation_witness :
    ("pipeline" ≠ "modules") ∧
    dirExists exC5bState.dirs CompType.modules "M1" = false ∧
    lookupEntry (rsection exC5bState.registry CompType.modules) "M1" =
        some { installed_by := ["direct"] } ∧
    (remove "pipeline" CompType.modules "M1" exC5bState).2 = false :=
  ⟨by decide, by decide, by decide,
   (c5_amended_reconciliation "pipeline" CompType.modules "M1" exC5bState
      { installed_by := ["direct"] } (by decide) (by decide) (by decide)).1⟩

/-- A stale subworkflow entry still referenced by another parent (SW9). -/
def exC10state : RemoveState :=
  { registry := { modules := [], subworkflows := [("SW3", { installed_by := ["SW9"] })] },
    dirs := [] }

/-- C10 counterexample: in the reconciliation branch the stale entry is not
dropped unconditionally — with `installed_by` still listing SW9 the entry
survives the remove call. -/
theorem c10_counterexample :
    dirExists exC10state.dirs CompType.subworkflows "SW3" = false ∧
    module_present exC10state.registry "SW3" = true ∧
    lookupEntry
        (remove "pipeline" CompType.subworkflows "SW3" exC10state).1.registry.subworkflows
        "SW3" = some { installed_by := ["SW9"] } := by
  refine ⟨by decide, by decide, by decide⟩

/-- C10 (amended): `remove_entry` called without a `removed_by` argument
behaves exactly as delete-if-unreferenced with the direct marker as the
revoked parent link, so the stale entry is dropped only when its
`installed_by` set becomes empty. -/
theorem c10_amended_none_is_direct (reg : Registry) (ct : CompType) (name : String)
    (e : ComponentEntry) (h : lookupEntry (rsection reg ct) name = some e) :
    remove_entry reg ct name none = remove_entry reg ct name (some "direct") ∧
    ((remove_entry reg ct name none).2 = true ↔ eraseParent e.installed_by "direct" = []) := by
  have hdir : (if "direct" = name then "direct" else "direct") = "direct" := by
    split <;> rfl
  have hre := remove_entry_eq_of_lookup reg ct name "direct" e h
  rw [hdir] at hre
  refine ⟨remove_entry_none_eq_direct reg ct name, ?_⟩
  rw [remove_entry_none_eq_direct, hre]
  by_cases hib : eraseParent e.installed_by "direct" = [] <;> simp [hib]

theorem c10_amended_none_is_direct_witness :
    lookupEntry (rsection exC10state.registry CompType.subworkflows) "SW3" =
        some { installed_by := ["SW9"] } ∧
    ((remove_entry exC10state.registry CompType.subworkflows "SW3" none).2 = true ↔
      eraseParent ["SW9"] "direct" = []) :=
  ⟨by decide,
   (c10_amended_none_is_direct exC10state.registry CompType.subworkflows "SW3"
      { installed_by := ["SW9"] } (by decide)).2⟩

theorem length_filter_ne_lt (l : DirSet) (x : CompType × String) (hx : x ∈ l) :
    (l.filter (fun d => decide (d ≠ x))).length < l.length := by
  induction l with
  | nil => simp at hx
  | cons y ys ih =>
    by_cases hy : y = x
    · subst hy
      rw [List.filter_cons]
      have hdec : decide (y ≠ y) = false := by simp
      simp only [hdec, Bool.false_eq_true, if_false]
      exact Nat.lt_succ_of_le (List.length_filter_le _ ys)
    · have hx2 : x ∈ ys := by
        rcases List.mem_cons.mp hx with h | h
        · exact absurd h.symm hy
        · exact h
      rw [List.filter_cons]
      have hdec : decide (y ≠ x) = true := by simp [hy]
      simp only [hdec, if_true, List.length_cons]
      exact Nat.succ_lt_succ (ih hx2)


theorem removeCandidate_dirs_eq (rb : Option String) (acc : RemoveState × Bool)
    (c : String × CompType) :
    (removeCandidate rb acc c).1.dirs =
      (if (remove_entry acc.1.registry c.2 c.1 rb).2
       then (clear_component_dir acc.1.dirs c.2 c.1).1 else acc.1.dirs) := by
  simp only [removeCandidate]
  by_cases h : (remove_entry acc.1.registry c.2 c.1 rb).2 = true <;> simp [h]

theorem removeCandidate_flag_eq (rb : Option String) (acc : RemoveState × Bool)
    (c : String × CompType) :
    (removeCandidate rb acc c).2 =
      ((if (remove_entry acc.1.registry c.2 c.1 rb).2
        then (clear_component_dir acc.1.dirs c.2 c.1).2 else false) || acc.2) := by
  simp only [removeCandidate]
  by_cases h : (remove_entry acc.1.registry c.2 c.1 rb).2 = true <;> simp [h]

theorem clear_dirs_sublist (dirs : DirSet) (ct : CompType) (name : String) :
    List.Sublist (clear_component_dir dirs ct name).1 dirs := by
  unfold clear_component_dir
  by_cases h : (ct, name) ∈ dirs
  · simp only [if_pos h]
    exact List.filter_sublist dirs
  · simp only [if_neg h]
    exact List.Sublist.refl dirs

theorem clear_not_cleared_eq (dirs : DirSet) (ct : CompType) (name : String)
    (h : (clear_component_dir dirs ct name).2 = false) :
    (clear_component_dir dirs ct name).1 = dirs := by
  unfold clear_component_dir at h ⊢
  by_cases hm : (ct, name) ∈ dirs
  · simp [hm] at h
  · simp [hm]

theorem clear_length_lt (dirs : DirSet) (ct : CompType) (name : String)
    (h : (clear_component_dir dirs ct name).2 = true) :
    (clear_component_dir dirs ct name).1.length < dirs.length := by
  unfold clear_component_dir at h ⊢
  by_cases hm : (ct, name) ∈ dirs
  · simp only [if_pos hm]
    exact length_filter_ne_lt dirs (ct, name) hm
  · simp [hm] at h

theorem removeCandidate_dirs_sublist (rb : Option String) (acc : RemoveState × Bool)
    (c : String × CompType) :
    List.Sublist (removeCandidate rb acc c).1.dirs acc.1.dirs := by
  rw [removeCandidate_dirs_eq]
  split
  · exact clear_dirs_sublist _ _ _
  · exact List.Sublist.refl _

theorem foldl_dirs_sublist (rb : Option String) (cands : List (String × CompType))
    (acc : RemoveState × Bool) :
    List.Sublist (cands.foldl (removeCandidate rb) acc).1.dirs acc.1.dirs := by
  induction cands generalizing acc with
  | nil => exact List.Sublist.refl _
  | cons c cs ih =>
    exact (ih (removeCandidate rb acc c)).trans (removeCandidate_dirs_sublist rb acc c)

theorem foldl_flag_eq_dirs_change (rb : Option String) (cands : List (String × CompType))
    (st : RemoveState) (b : Bool) :
    (cands.foldl (removeCandidate rb) (st, b)).2 =
      (b || decide ((cands.foldl (removeCandidate rb) (st, b)).1.dirs ≠ st.dirs)) := by
  induction cands generalizing st b with
  | nil => simp
  | cons c cs ih =>
    have hfold : (c :: cs).foldl (removeCandidate rb) (st, b) =
        cs.foldl (removeCandidate rb)
          ((removeCandidate rb (st, b) c).1, (removeCandidate rb (st, b) c).2) := by
      rw [List.foldl_cons]
    have hdirs : (removeCandidate rb (st, b) c).1.dirs =
        (if (remove_entry st.registry c.2 c.1 rb).2
         then (clear_component_dir st.dirs c.2 c.1).1 else st.dirs) :=
      removeCandidate_dirs_eq rb (st, b) c
    have hflag : (removeCandidate rb (st, b) c).2 =
        ((if (remove_entry st.registry c.2 c.1 rb).2
          then (clear_component_dir st.dirs c.2 c.1).2 else false) || b) :=
      removeCandidate_flag_eq rb (st, b) c
    by_cases hre : (remove_entry st.registry c.2 c.1 rb).2 = true
    · by_cases hcl : (clear_component_dir st.dirs c.2 c.1).2 = true
      · have hb1 : (removeCandidate rb (st, b) c).2 = true := by
          rw [hflag, if_pos hre, hcl]
          simp
        have hlt : (removeCandidate rb (st, b) c).1.dirs.length < st.dirs.length := by
          rw [hdirs, if_pos hre]
          exact clear_length_lt st.dirs c.2 c.1 hcl
        have hfinlen : (cs.foldl (removeCandidate rb)
            ((removeCandidate rb (st, b) c).1, (removeCandidate rb (st, b) c).2)).1.dirs.length
            < st.dirs.length :=
          lt_of_le_of_lt (List.Sublist.length_le (foldl_dirs_sublist rb cs _)) hlt
        have hneq : (cs.foldl (removeCandidate rb)
            ((removeCandidate rb (st, b) c).1, (removeCandidate rb (st, b) c).2)).1.dirs
            ≠ st.dirs := by
          intro hcontra
          rw [hcontra] at hfinlen
          exact lt_irrefl _ hfinlen
        rw [hfold, ih, hb1]
        rw [hb1] at hneq
        simp [hneq]
      · have hcl2 : (clear_component_dir st.dirs c.2 c.1).2 = false := by
          simpa using hcl
        have hb1 : (removeCandidate rb (st, b) c).2 = b := by
          rw [hflag, if_pos hre, hcl2]
          simp
        have hd1 : (removeCandidate rb (st, b) c).1.dirs = st.dirs := by
          rw [hdirs, if_pos hre]
          exact clear_not_cleared_eq st.dirs c.2 c.1 hcl2
        rw [hfold, ih, hb1, hd1]
    · have hb1 : (removeCandidate rb (st, b) c).2 = b := by
        rw [hflag, if_neg hre]
        simp
      have hd1 : (removeCandidate rb (st, b) c).1.dirs = st.dirs := by
        rw [hdirs, if_neg hre]
      rw [hfold, ih, hb1, hd1]

/-- C7: in a remove operation each candidate step deletes the candidate's
on-disk tree only when its registry entry was actually destroyed (otherwise
both the directory set and the accumulated flag are untouched), and the
overall result is `true` iff at least one such lock-step deletion succeeded,
i.e. iff the directory set actually changed. -/
theorem c7_lockstep_deletion (rt : String) (ct : CompType) (comp : String) (st : RemoveState)
    (h1 : rt ≠ "modules") (h2 : dirExists st.dirs ct comp = true) :
    (∀ (rb : Option String) (acc : RemoveState × Bool) (c : String × CompType),
      (removeCandidate rb acc c).1.dirs =
        (if (remove_entry acc.1.registry c.2 c.1 rb).2
         then (clear_component_dir acc.1.dirs c.2 c.1).1 else acc.1.dirs) ∧
      (removeCandidate rb acc c).2 =
        ((if (remove_entry acc.1.registry c.2 c.1 rb).2
          then (clear_component_dir acc.1.dirs c.2 c.1).2 else false) || acc.2)) ∧
    (remove rt ct comp st).2 = decide ((remove rt ct comp st).1.dirs ≠ st.dirs) := by
  refine ⟨fun rb acc c => ⟨removeCandidate_dirs_eq rb acc c, removeCandidate_flag_eq rb acc c⟩,
    ?_⟩
  have key : ∀ (rb : Option String) (cands : List (String × CompType)),
      (cands.foldl (removeCandidate rb) (st, false)).2 =
        decide ((cands.foldl (removeCandidate rb) (st, false)).1.dirs ≠ st.dirs) := by
    intro rb cands
    simpa using foldl_flag_eq_dirs_change rb cands st false
  cases ct with
  | modules =>
    have hrm : remove rt CompType.modules comp st =
        [(comp, CompType.modules)].foldl (removeCandidate none) (st, false) := by
      simp [remove, h1, h2]
    rw [hrm]
    exact key none [(comp, CompType.modules)]
  | subworkflows =>
    have hrm : remove rt CompType.subworkflows comp st =
        (dictUpdate [(comp, CompType.subworkflows)]
            (get_dependent_components st.registry CompType.subworkflows comp)).foldl
          (removeCandidate (some comp)) (st, false) := by
      simp [remove, h1, h2]
    rw [hrm]
    exact key (some comp) _

theorem c7_lockstep_deletion_witness :
    ("pipeline" ≠ "modules") ∧
    dirExists exC2state.dirs CompType.subworkflows "SW1" = true ∧
    (remove "pipeline" CompType.subworkflows "SW1" exC2state).2 =
      decide ((remove "pipeline" CompType.subworkflows "SW1" exC2state).1.dirs ≠
        exC2state.dirs) :=
  ⟨by decide, by decide,
   (c7_lockstep_deletion "pipeline" CompType.subworkflows "SW1" exC2state
      (by decide) (by decide)).2⟩

end NfCoreRemove

